import Mathlib

/-!
# Copy-based and move-based `swap`

Shallow embedding of the two function templates of
`3. Reduced Resources/3.4-Example_of_using_move_and_copy_semantics.cpp`:

```
template <typename T> void swap(T& a, T& b){ T tmp(a); a = b; b = tmp; }
template <typename T> void swap(T& a, T& b){ T tmp(std::move(a)); a = std::move(b); b = std::move(tmp); }
```

The parameters are references, so the embedding is store passing: the caller's
objects live in a memory `L → T`, `a` and `b` are locations (they may be the
same location), and `tmp` is a local object of the call, distinct from every
caller object.  Each C++ statement is one function on the state, and each
`swap` is the composition of its three statements in source order.

The special member functions of `T` are not part of the source.  A copy
yields an equal value and leaves its source alone.  A move gives the
destination the value the source held; what it leaves in the source is
unspecified and is a parameter (`MoveSem`).  `std::move` is a cast to an
rvalue: the member that runs on it is the move member when `T` declares one
and the copy member otherwise, so which move members `T` has is a parameter
too (`Members`).  A member of `T` may throw; the source has no handler, so the
exception leaves the call (`Throws`, `swapCopyE`, `swapMoveE`).
-/

namespace Swap

/-- What the move operations of `T` leave behind.  The destination of a move
always receives the value the source held; the state of the moved-from source
is unspecified, so it is a parameter. -/
structure MoveSem (T : Type) where
  /-- state of `src` after `T x(std::move(src))`, given the value `src` held -/
  ctorResidue : T → T
  /-- state of `src` after `dst = std::move(src)` with `dst` another object,
  given the old value of `dst` and the value `src` held -/
  assignResidue : T → T → T
  /-- state of `x` after `x = std::move(x)` -/
  selfAssign : T → T

/-- Which move members `T` declares.  On an rvalue argument overload
resolution selects the move member when there is one and falls back to the
copy member, which binds to an rvalue as well, when there is none. -/
structure Members where
  hasMoveCtor : Bool
  hasMoveAsgn : Bool
  deriving DecidableEq

/-- Which calls of the special members of `T` throw, by the values involved:
the source value for a constructor, the old destination and the source value
for an assignment. -/
structure Throws (T : Type) where
  copyCtor : T → Bool
  copyAsgn : T → T → Bool
  moveCtor : T → Bool
  moveAsgn : T → T → Bool

/-- Counters of the special member functions called so far. -/
structure Counters where
  copyCtor : Nat
  copyAsgn : Nat
  moveCtor : Nat
  moveAsgn : Nat
  deriving DecidableEq

/-- Number of duplications performed so far. -/
def Counters.copies (c : Counters) : Nat := c.copyCtor + c.copyAsgn

/-- Number of ownership transfers performed so far. -/
def Counters.moves (c : Counters) : Nat := c.moveCtor + c.moveAsgn

/-- The state the caller can see: its objects and the operation counters. -/
structure Machine (L T : Type) where
  mem : L → T
  cnt : Counters

/-- The state inside a call of `swap`: the caller's state and the local `tmp`. -/
structure Frame (L T : Type) where
  mem : L → T
  tmp : T
  cnt : Counters

/-- Store `v` in the object at location `r`. -/
def write {L T : Type} [DecidableEq L] (mem : L → T) (r : L) (v : T) : L → T :=
  fun l => if l = r then v else mem l

/-- Statement `T tmp(a);` : copy construction of the local from `a`. -/
def copyConstructTmp {L T : Type} (a : L) (s : Machine L T) : Frame L T :=
  { mem := s.mem, tmp := s.mem a, cnt := { s.cnt with copyCtor := s.cnt.copyCtor + 1 } }

/-- Statement `a = b;` : copy assignment between two caller references. -/
def copyAssign {L T : Type} [DecidableEq L] (a b : L) (f : Frame L T) : Frame L T :=
  { mem := write f.mem a (f.mem b), tmp := f.tmp,
    cnt := { f.cnt with copyAsgn := f.cnt.copyAsgn + 1 } }

/-- Statement `b = tmp;` : copy assignment from the local. -/
def copyAssignFromTmp {L T : Type} [DecidableEq L] (b : L) (f : Frame L T) : Frame L T :=
  { mem := write f.mem b f.tmp, tmp := f.tmp,
    cnt := { f.cnt with copyAsgn := f.cnt.copyAsgn + 1 } }

/-- Statement `T tmp(std::move(a));` : construction of the local from the
rvalue `a`: the move constructor when `T` has one, the copy constructor
otherwise. -/
def moveConstructTmp {L T : Type} [DecidableEq L] (k : Members) (m : MoveSem T) (a : L)
    (s : Machine L T) : Frame L T :=
  if k.hasMoveCtor then
    { mem := write s.mem a (m.ctorResidue (s.mem a)), tmp := s.mem a,
      cnt := { s.cnt with moveCtor := s.cnt.moveCtor + 1 } }
  else copyConstructTmp a s

/-- Statement `a = std::move(b);` : assignment from the rvalue `b` between two
caller references: the move assignment when `T` has one (a
self-move-assignment when both name one object), the copy assignment
otherwise. -/
def moveAssign {L T : Type} [DecidableEq L] (k : Members) (m : MoveSem T) (a b : L)
    (f : Frame L T) : Frame L T :=
  if k.hasMoveAsgn then
    if a = b then
      { mem := write f.mem a (m.selfAssign (f.mem a)), tmp := f.tmp,
        cnt := { f.cnt with moveAsgn := f.cnt.moveAsgn + 1 } }
    else
      { mem := write (write f.mem b (m.assignResidue (f.mem a) (f.mem b))) a (f.mem b),
        tmp := f.tmp,
        cnt := { f.cnt with moveAsgn := f.cnt.moveAsgn + 1 } }
  else copyAssign a b f

/-- Statement `b = std::move(tmp);` : assignment from the local, which is never
the object `b` refers to: the move assignment when `T` has one, the copy
assignment otherwise. -/
def moveAssignFromTmp {L T : Type} [DecidableEq L] (k : Members) (m : MoveSem T) (b : L)
    (f : Frame L T) : Frame L T :=
  if k.hasMoveAsgn then
    { mem := write f.mem b f.tmp, tmp := m.assignResidue (f.mem b) f.tmp,
      cnt := { f.cnt with moveAsgn := f.cnt.moveAsgn + 1 } }
  else copyAssignFromTmp b f

/-- Leaving the function: `tmp` is destroyed, the caller's state remains. -/
def Frame.ret {L T : Type} (f : Frame L T) : Machine L T :=
  { mem := f.mem, cnt := f.cnt }

/-- Body of the copy-based `swap`, up to the closing brace. -/
def swapCopyBody {L T : Type} [DecidableEq L] (a b : L) (s : Machine L T) : Frame L T :=
  copyAssignFromTmp b (copyAssign a b (copyConstructTmp a s))

/-- The copy-based `swap(a, b)`. -/
def swapCopy {L T : Type} [DecidableEq L] (a b : L) (s : Machine L T) : Machine L T :=
  (swapCopyBody a b s).ret

/-- Body of the move-based `swap`, up to the closing brace. -/
def swapMoveBody {L T : Type} [DecidableEq L] (k : Members) (m : MoveSem T)
    (a b : L) (s : Machine L T) : Frame L T :=
  moveAssignFromTmp k m b (moveAssign k m a b (moveConstructTmp k m a s))

/-- The move-based `swap(a, b)`. -/
def swapMove {L T : Type} [DecidableEq L] (k : Members) (m : MoveSem T)
    (a b : L) (s : Machine L T) : Machine L T :=
  (swapMoveBody k m a b s).ret

/-! ## Exceptions

The templates have no `try` and no `noexcept`: when a member of `T` throws,
the exception leaves `swap` at that statement and the call returns no state. -/

/-- One statement whose member call may throw: no next state when it throws. -/
def attempt {α : Type} (throws : Bool) (next : α) : Option α :=
  if throws then none else some next

/-- Whether the construction from an rvalue holding `src` throws: asked of the
member that overload resolution selects. -/
def Throws.construct {T : Type} (t : Throws T) (k : Members) (src : T) : Bool :=
  if k.hasMoveCtor then t.moveCtor src else t.copyCtor src

/-- Whether the assignment from an rvalue holding `src` to an object holding
`dst` throws: asked of the member that overload resolution selects. -/
def Throws.assign {T : Type} (t : Throws T) (k : Members) (dst src : T) : Bool :=
  if k.hasMoveAsgn then t.moveAsgn dst src else t.copyAsgn dst src

/-- No call of a special member of `T` throws. -/
def Throws.never {T : Type} (t : Throws T) : Prop :=
  (∀ v, t.copyCtor v = false) ∧ (∀ d v, t.copyAsgn d v = false) ∧
  (∀ v, t.moveCtor v = false) ∧ (∀ d v, t.moveAsgn d v = false)

/-- The copy-based `swap(a, b)` with exceptions: `none` when a member of `T`
threw and the call was left, the returned state otherwise. -/
def swapCopyE {L T : Type} [DecidableEq L] (t : Throws T) (a b : L)
    (s : Machine L T) : Option (Machine L T) :=
  (attempt (t.copyCtor (s.mem a)) (copyConstructTmp a s)).bind fun f1 =>
  (attempt (t.copyAsgn (f1.mem a) (f1.mem b)) (copyAssign a b f1)).bind fun f2 =>
  (attempt (t.copyAsgn (f2.mem b) f2.tmp) (copyAssignFromTmp b f2)).bind fun f3 =>
  some f3.ret

/-- The move-based `swap(a, b)` with exceptions: `none` when a member of `T`
threw and the call was left, the returned state otherwise. -/
def swapMoveE {L T : Type} [DecidableEq L] (t : Throws T) (k : Members) (m : MoveSem T)
    (a b : L) (s : Machine L T) : Option (Machine L T) :=
  (attempt (t.construct k (s.mem a)) (moveConstructTmp k m a s)).bind fun f1 =>
  (attempt (t.assign k (f1.mem a) (f1.mem b)) (moveAssign k m a b f1)).bind fun f2 =>
  (attempt (t.assign k (f2.mem b) f2.tmp) (moveAssignFromTmp k m b f2)).bind fun f3 =>
  some f3.ret

/-! ## Resource handles -/

/-- A move transfers ownership and never creates it: with `owns v` the buffer
handles a value owns, the source of a move construction is left owning
nothing, and the source of a move assignment is left owning at most what the
destination owned before (nothing when the old buffer is released, the old
buffer when the assignment is done by exchanging). -/
def TransfersOwnership {T H : Type} (owns : T → Finset H) (m : MoveSem T) : Prop :=
  (∀ v, owns (m.ctorResidue v) = ∅) ∧ (∀ d v, owns (m.assignResidue d v) ⊆ owns d)

/-- Number of holders among the final `a`, the final `b` and `tmp` that own
the handle `h` at the closing brace. -/
def ownerCount {L T H : Type} [DecidableEq H] (owns : T → Finset H) (f : Frame L T)
    (a b : L) (h : H) : Nat :=
  ([f.mem a, f.mem b, f.tmp].filter (fun v => decide (h ∈ owns v))).length

/-! ## Concrete data for the examples -/

/-- Two caller objects `x` (location 0) and `y` (every other location). -/
def twoVars {T : Type} (x y : T) : Machine Nat T :=
  { mem := fun l => if l = 0 then x else y,
    cnt := { copyCtor := 0, copyAsgn := 0, moveCtor := 0, moveAsgn := 0 } }

/-- A type with a move constructor and a move assignment, as `std::vector`. -/
def movable : Members := { hasMoveCtor := true, hasMoveAsgn := true }

/-- A type that declares copy members only: its rvalues are copied. -/
def copyOnly : Members := { hasMoveCtor := false, hasMoveAsgn := false }

/-- Members that never throw. -/
def neverThrows : Throws (List Int) :=
  { copyCtor := fun _ => false, copyAsgn := fun _ _ => false,
    moveCtor := fun _ => false, moveAsgn := fun _ _ => false }

/-- A vector whose allocator is exhausted: copying a non-empty vector has to
allocate and throws, moving allocates nothing and does not throw. -/
def allocFails : Throws (List Int) :=
  { copyCtor := fun v => !v.isEmpty, copyAsgn := fun _ v => !v.isEmpty,
    moveCtor := fun _ => false, moveAsgn := fun _ _ => false }

/-- A move that leaves an empty vector behind, as `std::vector` does. -/
def emptyingMove : MoveSem (List Int) :=
  { ctorResidue := fun _ => [], assignResidue := fun _ _ => [], selfAssign := fun _ => [] }

/-- Move semantics of a value that is one nullable buffer handle: the
moved-from object is left with the null handle. -/
def nullingMove : MoveSem (Option Nat) :=
  { ctorResidue := fun _ => none, assignResidue := fun _ _ => none, selfAssign := fun _ => none }

/-- Move semantics of a nullable buffer handle where move assignment
exchanges the two handles. -/
def exchangingMove : MoveSem (Option Nat) :=
  { ctorResidue := fun _ => none, assignResidue := fun d _ => d, selfAssign := fun v => v }

/-- A move that leaves junk behind: the moved-from vector keeps a stale
element, move assignment is done by exchanging, self-move clears. -/
def junkMove : MoveSem (List Int) :=
  { ctorResidue := fun v => 99 :: v, assignResidue := fun d _ => 7 :: d, selfAssign := fun _ => [13] }

/-! ## The call site -/

/-- Declaration `std::vector<int> a, b;` : two default-constructed vectors,
both empty, `a` at location 0 and `b` at location 1. -/
def callSiteInit : Machine Nat (List Int) := twoVars [] []

/-- Call `swap(a, b);` of the call site, resolved to the copy-based template. -/
def callSiteCopy : Machine Nat (List Int) := swapCopy 0 1 callSiteInit

/-- Call `swap(a, b);` of the call site, resolved to the move-based template;
`std::vector<int>` has both move members. -/
def callSiteMove (m : MoveSem (List Int)) : Machine Nat (List Int) :=
  swapMove movable m 0 1 callSiteInit

/-! ## Shared lemmas -/

theorem write_same {L T : Type} [DecidableEq L] (mem : L → T) (r : L) (v : T) :
    write mem r v r = v := by
  simp [write]

theorem write_other {L T : Type} [DecidableEq L] (mem : L → T) (r l : L) (v : T)
    (h : l ≠ r) : write mem r v l = mem l := by
  simp [write, h]

/-- The caller's memory after the copy-based swap, in closed form. -/
theorem swapCopy_mem {L T : Type} [DecidableEq L] (a b : L) (s : Machine L T) :
    (swapCopy a b s).mem = write (write s.mem a (s.mem b)) b (s.mem a) := by
  rfl

/-- The caller's memory after the move-based swap of two distinct objects:
no residue is left in it. -/
theorem swapMove_mem_of_ne {L T : Type} [DecidableEq L] (k : Members) (m : MoveSem T)
    (a b : L) (s : Machine L T) (h : a ≠ b) :
    (swapMove k m a b s).mem = write (write s.mem a (s.mem b)) b (s.mem a) := by
  funext l
  rcases k with ⟨c, g⟩
  cases c <;> cases g <;>
    simp only [swapMove, swapMoveBody, Frame.ret, moveAssignFromTmp, moveAssign,
      moveConstructTmp, copyAssignFromTmp, copyAssign, copyConstructTmp, if_neg h,
      if_true, if_false, Bool.false_eq_true] <;>
    by_cases hb : l = b <;> by_cases ha : l = a <;>
    simp [write, hb, ha, h, Ne.symm h]

/-- The caller's memory after the move-based swap of an object with itself. -/
theorem swapMove_mem_self {L T : Type} [DecidableEq L] (k : Members) (m : MoveSem T)
    (x : L) (s : Machine L T) : (swapMove k m x x s).mem = s.mem := by
  funext l
  rcases k with ⟨c, g⟩
  cases c <;> cases g <;>
    simp only [swapMove, swapMoveBody, Frame.ret, moveAssignFromTmp, moveAssign,
      moveConstructTmp, copyAssignFromTmp, copyAssign, copyConstructTmp, if_pos rfl,
      if_true, if_false, Bool.false_eq_true] <;>
    by_cases hx : l = x <;> simp [write, hx]

/-- The caller's memory after the copy-based swap of an object with itself. -/
theorem swapCopy_mem_self {L T : Type} [DecidableEq L] (x : L) (s : Machine L T) :
    (swapCopy x x s).mem = s.mem := by
  funext l
  rw [swapCopy_mem]
  by_cases hx : l = x
  · subst hx; simp [write]
  · simp [write, hx]

/-- Two caller states with equal memory and equal counters are equal. -/
theorem machine_eq {L T : Type} (r1 r2 : Machine L T) (hmem : r1.mem = r2.mem)
    (hcnt : r1.cnt = r2.cnt) : r1 = r2 := by
  cases r1; cases r2; simp_all

/-- The counters after the move-based swap: each of the three statements calls
the move member when `T` has it and the copy member otherwise; the references
and the values play no part. -/
theorem swapMove_cnt {L T : Type} [DecidableEq L] (k : Members) (m : MoveSem T)
    (a b : L) (s : Machine L T) :
    (swapMove k m a b s).cnt
      = { copyCtor := s.cnt.copyCtor + (if k.hasMoveCtor then 0 else 1),
          copyAsgn := s.cnt.copyAsgn + (if k.hasMoveAsgn then 0 else 2),
          moveCtor := s.cnt.moveCtor + (if k.hasMoveCtor then 1 else 0),
          moveAsgn := s.cnt.moveAsgn + (if k.hasMoveAsgn then 2 else 0) } := by
  rcases k with ⟨c, g⟩
  cases c <;> cases g <;> by_cases h : a = b <;>
    simp [swapMove, swapMoveBody, Frame.ret, moveAssignFromTmp, moveAssign,
      moveConstructTmp, copyAssignFromTmp, copyAssign, copyConstructTmp, h]

/-- The local `tmp` at the closing brace of the move-based swap. -/
theorem swapMoveBody_tmp {L T : Type} [DecidableEq L] (k : Members) (m : MoveSem T)
    (a b : L) (s : Machine L T) :
    (swapMoveBody k m a b s).tmp
      = if k.hasMoveAsgn then
          m.assignResidue ((moveAssign k m a b (moveConstructTmp k m a s)).mem b) (s.mem a)
        else s.mem a := by
  rcases k with ⟨c, g⟩
  cases c <;> cases g <;> by_cases h : a = b <;>
    simp [swapMoveBody, moveAssignFromTmp, moveAssign, moveConstructTmp,
      copyAssignFromTmp, copyAssign, copyConstructTmp, h]

/-- The exchanged memory holds the old value of `b` in `a`. -/
theorem exchanged_fst {L T : Type} [DecidableEq L] (mem : L → T) (a b : L) :
    write (write mem a (mem b)) b (mem a) a = mem b := by
  by_cases h : a = b
  · subst h; simp [write]
  · simp [write, h]

/-- The exchanged memory leaves every other object alone. -/
theorem exchanged_other {L T : Type} [DecidableEq L] (mem : L → T) (a b l : L)
    (ha : l ≠ a) (hb : l ≠ b) : write (write mem a (mem b)) b (mem a) l = mem l := by
  simp [write, ha, hb]

/-- When no member throws, the copy-based swap with exceptions returns the
state of the copy-based swap. -/
theorem swapCopyE_of_never {L T : Type} [DecidableEq L] (t : Throws T) (a b : L)
    (s : Machine L T) (hnt : t.never) : swapCopyE t a b s = some (swapCopy a b s) := by
  simp [swapCopyE, attempt, hnt.1, hnt.2.1, swapCopy, swapCopyBody]

/-- When no member throws, the move-based swap with exceptions returns the
state of the move-based swap. -/
theorem swapMoveE_of_never {L T : Type} [DecidableEq L] (t : Throws T) (k : Members)
    (m : MoveSem T) (a b : L) (s : Machine L T) (hnt : t.never) :
    swapMoveE t k m a b s = some (swapMove k m a b s) := by
  have h1 : ∀ v, t.construct k v = false := fun v => by
    unfold Throws.construct; split
    · exact hnt.2.2.1 v
    · exact hnt.1 v
  have h2 : ∀ d v, t.assign k d v = false := fun d v => by
    unfold Throws.assign; split
    · exact hnt.2.2.2 d v
    · exact hnt.2.1 d v
  simp [swapMoveE, attempt, h1, h2, swapMove, swapMoveBody]

/-! ## Contract of the two strategies -/

/-- C1: the copy-based swap of two distinct objects `a` and `b` ends with `a`
holding the old value of `b` and `b` holding the old value of `a`. -/
theorem swapCopy_exchanges {L T : Type} [DecidableEq L] (a b : L) (s : Machine L T)
    (h : a ≠ b) :
    (swapCopy a b s).mem a = s.mem b ∧ (swapCopy a b s).mem b = s.mem a := by
  rw [swapCopy_mem]
  refine ⟨?_, write_same _ _ _⟩
  rw [write_other _ _ _ _ h, write_same]

/-- The two examples of the contract: `[1,2,3]`, `[4,5]` and `[]`, `[7]`. -/
theorem swapCopy_exchanges_witness :
    (0 : Nat) ≠ 1 ∧
    ((swapCopy 0 1 (twoVars [1, 2, 3] [4, 5])).mem 0 = ([4, 5] : List Int) ∧
      (swapCopy 0 1 (twoVars [1, 2, 3] [4, 5])).mem 1 = ([1, 2, 3] : List Int)) ∧
    ((swapCopy 0 1 (twoVars [] [7])).mem 0 = ([7] : List Int) ∧
      (swapCopy 0 1 (twoVars [] [7])).mem 1 = ([] : List Int)) :=
  ⟨by decide, swapCopy_exchanges 0 1 (twoVars [1, 2, 3] [4, 5]) (by decide),
    swapCopy_exchanges 0 1 (twoVars [] [7]) (by decide)⟩

/-- C2: the move-based swap of two distinct objects `a` and `b` ends with `a`
holding the old value of `b` and `b` holding the old value of `a`, whatever
the moves leave behind in a moved-from object. -/
theorem swapMove_exchanges {L T : Type} [DecidableEq L] (k : Members) (m : MoveSem T)
    (a b : L) (s : Machine L T) (h : a ≠ b) :
    (swapMove k m a b s).mem a = s.mem b ∧ (swapMove k m a b s).mem b = s.mem a := by
  rw [swapMove_mem_of_ne k m a b s h]
  refine ⟨?_, write_same _ _ _⟩
  rw [write_other _ _ _ _ h, write_same]

/-- The move-based swap on `[1,2,3]`, `[4,5]` with a move that leaves junk. -/
theorem swapMove_exchanges_witness :
    (0 : Nat) ≠ 1 ∧
    (swapMove movable junkMove 0 1 (twoVars [1, 2, 3] [4, 5])).mem 0 = ([4, 5] : List Int) ∧
    (swapMove movable junkMove 0 1 (twoVars [1, 2, 3] [4, 5])).mem 1 = ([1, 2, 3] : List Int) :=
  ⟨by decide, swapMove_exchanges movable junkMove 0 1 (twoVars [1, 2, 3] [4, 5]) (by decide)⟩

/-- C3: swapping two distinct objects twice in succession restores the
caller's memory, so `x` and `y` hold their original values again; this holds
for the copy-based and for the move-based swap. -/
theorem swap_twice_restores {L T : Type} [DecidableEq L] (k : Members) (m : MoveSem T)
    (x y : L) (s : Machine L T) (h : x ≠ y) :
    ((swapCopy x y (swapCopy x y s)).mem x = s.mem x ∧
      (swapCopy x y (swapCopy x y s)).mem y = s.mem y) ∧
    ((swapMove k m x y (swapMove k m x y s)).mem x = s.mem x ∧
      (swapMove k m x y (swapMove k m x y s)).mem y = s.mem y) ∧
    (swapCopy x y (swapCopy x y s)).mem = s.mem ∧
    (swapMove k m x y (swapMove k m x y s)).mem = s.mem := by
  have key : write (write (write (write s.mem x (s.mem y)) y (s.mem x)) x
      (write (write s.mem x (s.mem y)) y (s.mem x) y)) y
      (write (write s.mem x (s.mem y)) y (s.mem x) x) = s.mem := by
    funext l
    by_cases hy : l = y
    · subst hy; simp [write, h]
    · by_cases hx : l = x
      · subst hx; simp [write, hy]
      · simp [write, hy, hx]
  have hc : (swapCopy x y (swapCopy x y s)).mem = s.mem := by
    rw [swapCopy_mem, swapCopy_mem]; exact key
  have hm : (swapMove k m x y (swapMove k m x y s)).mem = s.mem := by
    rw [swapMove_mem_of_ne k m x y _ h, swapMove_mem_of_ne k m x y s h]; exact key
  exact ⟨⟨congrFun hc x, congrFun hc y⟩, ⟨congrFun hm x, congrFun hm y⟩, hc, hm⟩

/-- Swapping `[1,2,3]` and `[4,5]` twice, by copy and by a junk-leaving move. -/
theorem swap_twice_restores_witness :
    (0 : Nat) ≠ 1 ∧
    (swapCopy 0 1 (swapCopy 0 1 (twoVars [1, 2, 3] [4, 5]))).mem 0 = ([1, 2, 3] : List Int) ∧
    (swapCopy 0 1 (swapCopy 0 1 (twoVars [1, 2, 3] [4, 5]))).mem 1 = ([4, 5] : List Int) ∧
    (swapMove movable junkMove 0 1 (swapMove movable junkMove 0 1 (twoVars [1, 2, 3] [4, 5]))).mem 0
      = ([1, 2, 3] : List Int) ∧
    (swapMove movable junkMove 0 1 (swapMove movable junkMove 0 1 (twoVars [1, 2, 3] [4, 5]))).mem 1
      = ([4, 5] : List Int) :=
  ⟨by decide,
    (swap_twice_restores movable junkMove 0 1 (twoVars [1, 2, 3] [4, 5]) (by decide)).1.1,
    (swap_twice_restores movable junkMove 0 1 (twoVars [1, 2, 3] [4, 5]) (by decide)).1.2,
    (swap_twice_restores movable junkMove 0 1 (twoVars [1, 2, 3] [4, 5]) (by decide)).2.1.1,
    (swap_twice_restores movable junkMove 0 1 (twoVars [1, 2, 3] [4, 5]) (by decide)).2.1.2⟩

/-- C4: when both parameters refer to the same object `x`, the swap leaves `x`
holding its original value: for the copy-based swap, and for the move-based
swap whatever a move leaves behind and whatever a self-move-assignment
produces, and whichever move members `T` has. -/
theorem swap_self_unchanged {L T : Type} [DecidableEq L] (x : L) (s : Machine L T) :
    (swapCopy x x s).mem x = s.mem x ∧
    ∀ (k : Members) (m : MoveSem T), (swapMove k m x x s).mem x = s.mem x :=
  ⟨congrFun (swapCopy_mem_self x s) x, fun k m => congrFun (swapMove_mem_self k m x s) x⟩

/-- C5: after the swap of two distinct objects `x` and `y`, by either
strategy, the new `x` equals the old `y`, and when the old values differ the
new `x` differs from the old `x`. -/
theorem swap_new_x {L T : Type} [DecidableEq L] (k : Members) (m : MoveSem T)
    (x y : L) (s : Machine L T) (h : x ≠ y) :
    ((swapCopy x y s).mem x = s.mem y ∧
      (s.mem x ≠ s.mem y → (swapCopy x y s).mem x ≠ s.mem x)) ∧
    ((swapMove k m x y s).mem x = s.mem y ∧
      (s.mem x ≠ s.mem y → (swapMove k m x y s).mem x ≠ s.mem x)) := by
  have hc : (swapCopy x y s).mem x = s.mem y := by
    rw [swapCopy_mem, write_other _ _ _ _ h, write_same]
  have hm : (swapMove k m x y s).mem x = s.mem y := by
    rw [swapMove_mem_of_ne k m x y s h, write_other _ _ _ _ h, write_same]
  refine ⟨⟨hc, fun hne => ?_⟩, ⟨hm, fun hne => ?_⟩⟩
  · rw [hc]; exact Ne.symm hne
  · rw [hm]; exact Ne.symm hne

/-- The new `x` after swapping `[1,2,3]` and `[4,5]`. -/
theorem swap_new_x_witness :
    (0 : Nat) ≠ 1 ∧ ([1, 2, 3] : List Int) ≠ [4, 5] ∧
    (swapCopy 0 1 (twoVars [1, 2, 3] [4, 5])).mem 0 = ([4, 5] : List Int) ∧
    (swapCopy 0 1 (twoVars [1, 2, 3] [4, 5])).mem 0 ≠ ([1, 2, 3] : List Int) ∧
    (swapMove movable junkMove 0 1 (twoVars [1, 2, 3] [4, 5])).mem 0 = ([4, 5] : List Int) ∧
    (swapMove movable junkMove 0 1 (twoVars [1, 2, 3] [4, 5])).mem 0 ≠ ([1, 2, 3] : List Int) :=
  ⟨by decide, by decide,
    (swap_new_x movable junkMove 0 1 (twoVars [1, 2, 3] [4, 5]) (by decide)).1.1,
    (swap_new_x movable junkMove 0 1 (twoVars [1, 2, 3] [4, 5]) (by decide)).1.2 (by decide),
    (swap_new_x movable junkMove 0 1 (twoVars [1, 2, 3] [4, 5]) (by decide)).2.1,
    (swap_new_x movable junkMove 0 1 (twoVars [1, 2, 3] [4, 5]) (by decide)).2.2 (by decide)⟩

/-! ## Conservation, residues, cost and ownership -/

/-- C6: for both strategies, the multiset of the values held by the two
distinct objects after the swap is the multiset of the values they held
before: nothing is duplicated and nothing is lost. -/
theorem swap_conserves_values {L T : Type} [DecidableEq L] (k : Members) (m : MoveSem T)
    (a b : L) (s : Machine L T) (h : a ≠ b) :
    ({(swapCopy a b s).mem a, (swapCopy a b s).mem b} : Multiset T)
      = {s.mem a, s.mem b} ∧
    ({(swapMove k m a b s).mem a, (swapMove k m a b s).mem b} : Multiset T)
      = {s.mem a, s.mem b} := by
  have hw : ({write (write s.mem a (s.mem b)) b (s.mem a) a,
      write (write s.mem a (s.mem b)) b (s.mem a) b} : Multiset T)
      = {s.mem a, s.mem b} := by
    rw [write_same, write_other _ _ _ _ h, write_same]
    exact Multiset.pair_comm _ _
  constructor
  · rw [swapCopy_mem]; exact hw
  · rw [swapMove_mem_of_ne k m a b s h]; exact hw

/-- Conservation on `[1,2,3]`, `[4,5]`, by copy and by a junk-leaving move. -/
theorem swap_conserves_values_witness :
    (0 : Nat) ≠ 1 ∧
    ({(swapCopy 0 1 (twoVars [1, 2, 3] [4, 5])).mem 0,
      (swapCopy 0 1 (twoVars [1, 2, 3] [4, 5])).mem 1} : Multiset (List Int))
      = {[1, 2, 3], [4, 5]} ∧
    ({(swapMove movable junkMove 0 1 (twoVars [1, 2, 3] [4, 5])).mem 0,
      (swapMove movable junkMove 0 1 (twoVars [1, 2, 3] [4, 5])).mem 1} : Multiset (List Int))
      = {[1, 2, 3], [4, 5]} :=
  ⟨by decide, swap_conserves_values movable junkMove 0 1 (twoVars [1, 2, 3] [4, 5]) (by decide)⟩

/-- C7: the state the move-based swap returns to the caller is the same for any
two choices of what a move leaves behind (two runs from one initial state);
the residue of the last move stays in the local `tmp`, which holds what a
move assignment of the old value of `a` left behind (and the old value of `a`
itself when `T` has no move assignment). -/
theorem swapMove_residue_unobserved {L T : Type} [DecidableEq L] (k : Members)
    (m1 m2 : MoveSem T) (a b : L) (s : Machine L T) :
    swapMove k m1 a b s = swapMove k m2 a b s ∧
    (swapMoveBody k m1 a b s).tmp
      = if k.hasMoveAsgn then
          m1.assignResidue ((moveAssign k m1 a b (moveConstructTmp k m1 a s)).mem b) (s.mem a)
        else s.mem a := by
  refine ⟨machine_eq _ _ ?_ ?_, swapMoveBody_tmp k m1 a b s⟩
  · by_cases h : a = b
    · subst h; rw [swapMove_mem_self, swapMove_mem_self]
    · rw [swapMove_mem_of_ne k m1 a b s h, swapMove_mem_of_ne k m2 a b s h]
  · rw [swapMove_cnt, swapMove_cnt]

/-- C8, as amended: for a type that has a move constructor and a move
assignment, every run of the move-based swap calls one move constructor and
two move assignments, three ownership transfers in all, and no copy
operation. -/
theorem swapMove_cost {L T : Type} [DecidableEq L] (k : Members) (m : MoveSem T)
    (a b : L) (s : Machine L T) (hc : k.hasMoveCtor = true) (ha : k.hasMoveAsgn = true) :
    (swapMove k m a b s).cnt.moveCtor = s.cnt.moveCtor + 1 ∧
    (swapMove k m a b s).cnt.moveAsgn = s.cnt.moveAsgn + 2 ∧
    (swapMove k m a b s).cnt.moves = s.cnt.moves + 3 ∧
    (swapMove k m a b s).cnt.copyCtor = s.cnt.copyCtor ∧
    (swapMove k m a b s).cnt.copyAsgn = s.cnt.copyAsgn ∧
    (swapMove k m a b s).cnt.copies = s.cnt.copies := by
  rw [swapMove_cnt]
  simp only [hc, ha, if_true, Counters.moves, Counters.copies]
  exact ⟨trivial, trivial, by omega, rfl, rfl, rfl⟩

/-- The cost of the move-based swap of two vectors, which have both move
members, from counters at zero. -/
theorem swapMove_cost_witness :
    movable.hasMoveCtor = true ∧ movable.hasMoveAsgn = true ∧
    (swapMove movable junkMove 0 1 (twoVars [1, 2, 3] [4, 5])).cnt.moveCtor = 0 + 1 ∧
    (swapMove movable junkMove 0 1 (twoVars [1, 2, 3] [4, 5])).cnt.moveAsgn = 0 + 2 ∧
    (swapMove movable junkMove 0 1 (twoVars [1, 2, 3] [4, 5])).cnt.moves = 0 + 3 ∧
    (swapMove movable junkMove 0 1 (twoVars [1, 2, 3] [4, 5])).cnt.copyCtor = 0 ∧
    (swapMove movable junkMove 0 1 (twoVars [1, 2, 3] [4, 5])).cnt.copyAsgn = 0 ∧
    (swapMove movable junkMove 0 1 (twoVars [1, 2, 3] [4, 5])).cnt.copies = 0 :=
  ⟨rfl, rfl, swapMove_cost movable junkMove 0 1 (twoVars [1, 2, 3] [4, 5]) rfl rfl⟩

/-- C8 as stated fails: for a type with copy members only, the three
statements of the move-based swap of `[1,2,3]` and `[4,5]` run three copies
and no move. -/
theorem swapMove_cost_counterexample :
    (swapMove copyOnly junkMove 0 1 (twoVars [1, 2, 3] [4, 5])).cnt.copies = 3 ∧
    (swapMove copyOnly junkMove 0 1 (twoVars [1, 2, 3] [4, 5])).cnt.moves = 0 ∧
    ¬ ((swapMove copyOnly junkMove 0 1 (twoVars [1, 2, 3] [4, 5])).cnt.moves
          = (twoVars ([1, 2, 3] : List Int) [4, 5]).cnt.moves + 3 ∧
        (swapMove copyOnly junkMove 0 1 (twoVars [1, 2, 3] [4, 5])).cnt.copies
          = (twoVars ([1, 2, 3] : List Int) [4, 5]).cnt.copies) := by
  decide

/-- C9: every run of the copy-based swap calls one copy constructor and two
copy assignments, three duplications in all, whatever the values; it calls no
move operation. -/
theorem swapCopy_cost {L T : Type} [DecidableEq L] (a b : L) (s : Machine L T) :
    (swapCopy a b s).cnt.copyCtor = s.cnt.copyCtor + 1 ∧
    (swapCopy a b s).cnt.copyAsgn = s.cnt.copyAsgn + 2 ∧
    (swapCopy a b s).cnt.copies = s.cnt.copies + 3 ∧
    (swapCopy a b s).cnt.moves = s.cnt.moves := by
  refine ⟨rfl, rfl, ?_, rfl⟩
  show s.cnt.copyCtor + 1 + (s.cnt.copyAsgn + 1 + 1) = s.cnt.copyCtor + s.cnt.copyAsgn + 3
  omega

/-- C10: values own buffer handles (`owns`), `T` has both move members and a
move transfers ownership.  After the body of the move-based swap of two
distinct objects that share no handle, `tmp` owns no handle the final `a` or
the final `b` owns, the final `a` and `b` share no handle, and every handle the
two values owned has exactly one owner among the final `a`, the final `b` and
`tmp`. -/
theorem swapMove_no_aliasing {L T H : Type} [DecidableEq L] [DecidableEq H]
    (owns : T → Finset H) (k : Members) (m : MoveSem T) (a b : L) (s : Machine L T)
    (hc : k.hasMoveCtor = true) (ha : k.hasMoveAsgn = true)
    (hab : a ≠ b) (hm : TransfersOwnership owns m)
    (hd : Disjoint (owns (s.mem a)) (owns (s.mem b))) :
    Disjoint (owns (swapMoveBody k m a b s).tmp) (owns ((swapMoveBody k m a b s).mem a)) ∧
    Disjoint (owns (swapMoveBody k m a b s).tmp) (owns ((swapMoveBody k m a b s).mem b)) ∧
    Disjoint (owns ((swapMoveBody k m a b s).mem a)) (owns ((swapMoveBody k m a b s).mem b)) ∧
    ∀ h, h ∈ owns (s.mem a) ∪ owns (s.mem b) →
      ownerCount owns (swapMoveBody k m a b s) a b h = 1 := by
  have hmem : (swapMoveBody k m a b s).mem = write (write s.mem a (s.mem b)) b (s.mem a) :=
    swapMove_mem_of_ne k m a b s hab
  have hfa : (swapMoveBody k m a b s).mem a = s.mem b := by
    rw [hmem, write_other _ _ _ _ hab, write_same]
  have hfb : (swapMoveBody k m a b s).mem b = s.mem a := by
    rw [hmem, write_same]
  have htmp : (swapMoveBody k m a b s).tmp
      = m.assignResidue (m.assignResidue (m.ctorResidue (s.mem a)) (s.mem b)) (s.mem a) := by
    simp [swapMoveBody, moveAssignFromTmp, moveAssign, moveConstructTmp, hc, ha, hab,
      write, Ne.symm hab]
  have hempty : owns (swapMoveBody k m a b s).tmp = ∅ := by
    rw [htmp]
    apply Finset.subset_empty.mp
    calc owns (m.assignResidue (m.assignResidue (m.ctorResidue (s.mem a)) (s.mem b)) (s.mem a))
        ⊆ owns (m.assignResidue (m.ctorResidue (s.mem a)) (s.mem b)) := hm.2 _ _
      _ ⊆ owns (m.ctorResidue (s.mem a)) := hm.2 _ _
      _ = ∅ := hm.1 _
  refine ⟨?_, ?_, ?_, ?_⟩
  · rw [hempty]; exact Finset.disjoint_empty_left _
  · rw [hempty]; exact Finset.disjoint_empty_left _
  · rw [hfa, hfb]; exact hd.symm
  · intro h hh
    have hnot : ¬ (h ∈ owns (s.mem a) ∧ h ∈ owns (s.mem b)) := fun hc =>
      Finset.disjoint_left.mp hd hc.1 hc.2
    rcases Finset.mem_union.mp hh with h1 | h2
    · have h2 : h ∉ owns (s.mem b) := fun hc => hnot ⟨h1, hc⟩
      simp [ownerCount, hfa, hfb, hempty, h1, h2, List.filter]
    · have h1 : h ∉ owns (s.mem a) := fun hc => hnot ⟨hc, h2⟩
      simp [ownerCount, hfa, hfb, hempty, h1, h2, List.filter]

/-- Two objects owning the buffers 10 and 20, with a move assignment that
exchanges handles: after the body, buffer 10 has one owner. -/
theorem swapMove_no_aliasing_witness :
    movable.hasMoveCtor = true ∧ movable.hasMoveAsgn = true ∧
    (0 : Nat) ≠ 1 ∧ TransfersOwnership Option.toFinset exchangingMove ∧
    Disjoint (Option.toFinset ((twoVars (some 10) (some 20)).mem 0))
      (Option.toFinset ((twoVars (some 10) (some 20)).mem 1)) ∧
    Disjoint (Option.toFinset (swapMoveBody movable exchangingMove 0 1 (twoVars (some 10) (some 20))).tmp)
      (Option.toFinset ((swapMoveBody movable exchangingMove 0 1 (twoVars (some 10) (some 20))).mem 0)) ∧
    Disjoint (Option.toFinset (swapMoveBody movable exchangingMove 0 1 (twoVars (some 10) (some 20))).tmp)
      (Option.toFinset ((swapMoveBody movable exchangingMove 0 1 (twoVars (some 10) (some 20))).mem 1)) ∧
    Disjoint (Option.toFinset ((swapMoveBody movable exchangingMove 0 1 (twoVars (some 10) (some 20))).mem 0))
      (Option.toFinset ((swapMoveBody movable exchangingMove 0 1 (twoVars (some 10) (some 20))).mem 1)) ∧
    ownerCount Option.toFinset
      (swapMoveBody movable exchangingMove 0 1 (twoVars (some 10) (some 20))) 0 1 10 = 1 :=
  have hm : TransfersOwnership Option.toFinset exchangingMove :=
    ⟨fun _ => rfl, fun _ _ => Finset.Subset.refl _⟩
  have hd : Disjoint (Option.toFinset ((twoVars (some 10) (some 20)).mem 0))
      (Option.toFinset ((twoVars (some 10) (some 20)).mem 1)) := by decide
  have key := swapMove_no_aliasing Option.toFinset movable exchangingMove 0 1
    (twoVars (some 10) (some 20)) rfl rfl (by decide) hm hd
  ⟨rfl, rfl, by decide, hm, hd, key.1, key.2.1, key.2.2.1, key.2.2.2 10 (by decide)⟩

/-! ## Exceptions, equivalence of the strategies, symmetry, the call site -/

/-- C11, as amended: the swap adds no error outcome of its own.  When no
special member of `T` throws, the copy-based and the move-based swap both
return a final state, for every memory, every two references (aliased or
not), every behaviour of the moves and whichever move members `T` has; in
that state `a` holds the old value of `b`, `b` the old value of `a`, and every
other object is untouched. -/
theorem swap_returns_of_never_throws {L T : Type} [DecidableEq L] (t : Throws T)
    (k : Members) (m : MoveSem T) (a b : L) (s : Machine L T) (hnt : t.never) :
    (∃ r : Machine L T, swapCopyE t a b s = some r ∧
      r.mem a = s.mem b ∧ r.mem b = s.mem a ∧ ∀ l, l ≠ a → l ≠ b → r.mem l = s.mem l) ∧
    (∃ r : Machine L T, swapMoveE t k m a b s = some r ∧
      r.mem a = s.mem b ∧ r.mem b = s.mem a ∧ ∀ l, l ≠ a → l ≠ b → r.mem l = s.mem l) := by
  constructor
  · refine ⟨swapCopy a b s, swapCopyE_of_never t a b s hnt, ?_, ?_, ?_⟩
    · rw [swapCopy_mem]; exact exchanged_fst s.mem a b
    · rw [swapCopy_mem]; exact write_same _ _ _
    · intro l hla hlb; rw [swapCopy_mem]; exact exchanged_other s.mem a b l hla hlb
  · refine ⟨swapMove k m a b s, swapMoveE_of_never t k m a b s hnt, ?_⟩
    by_cases h : a = b
    · subst h
      rw [swapMove_mem_self]
      exact ⟨rfl, rfl, fun _ _ _ => rfl⟩
    · rw [swapMove_mem_of_ne k m a b s h]
      exact ⟨exchanged_fst s.mem a b, write_same _ _ _,
        fun l hla hlb => exchanged_other s.mem a b l hla hlb⟩

/-- Both swaps of `[1,2,3]` and `[4,5]` return when no member throws; the
objects at other locations are untouched. -/
theorem swap_returns_of_never_throws_witness :
    neverThrows.never ∧
    (∃ r : Machine Nat (List Int),
      swapCopyE neverThrows 0 1 (twoVars [1, 2, 3] [4, 5]) = some r ∧
      r.mem 0 = [4, 5] ∧ r.mem 1 = [1, 2, 3] ∧
      ∀ l, l ≠ 0 → l ≠ 1 → r.mem l = (twoVars [1, 2, 3] [4, 5]).mem l) ∧
    (∃ r : Machine Nat (List Int),
      swapMoveE neverThrows movable junkMove 0 1 (twoVars [1, 2, 3] [4, 5]) = some r ∧
      r.mem 0 = [4, 5] ∧ r.mem 1 = [1, 2, 3] ∧
      ∀ l, l ≠ 0 → l ≠ 1 → r.mem l = (twoVars [1, 2, 3] [4, 5]).mem l) :=
  have hnt : neverThrows.never :=
    ⟨fun _ => rfl, fun _ _ => rfl, fun _ => rfl, fun _ _ => rfl⟩
  ⟨hnt, swap_returns_of_never_throws neverThrows movable junkMove 0 1
    (twoVars [1, 2, 3] [4, 5]) hnt⟩

/-- C11 as stated fails: with an exhausted allocator the copy constructor of
the first statement throws on `[1,2,3]`, and the copy-based swap returns no
final state. -/
theorem swap_total_counterexample :
    allocFails.copyCtor [1, 2, 3] = true ∧
    swapCopyE allocFails 0 1 (twoVars [1, 2, 3] [4, 5]) = none ∧
    ¬ ∃ r : Machine Nat (List Int),
      swapCopyE allocFails 0 1 (twoVars [1, 2, 3] [4, 5]) = some r := by
  have hnone : swapCopyE allocFails 0 1 (twoVars [1, 2, 3] [4, 5]) = none := rfl
  refine ⟨rfl, hnone, ?_⟩
  rintro ⟨r, hr⟩
  rw [hnone] at hr
  cases hr

/-- C12: the copy-based and the move-based swap leave the same values in the
caller's objects, in `a`, in `b` and in the whole memory, whatever the moves
leave behind; this holds for distinct references and for aliased ones. -/
theorem swapCopy_mem_eq_swapMove {L T : Type} [DecidableEq L] (k : Members) (m : MoveSem T)
    (a b : L) (s : Machine L T) :
    ((swapCopy a b s).mem a, (swapCopy a b s).mem b)
      = ((swapMove k m a b s).mem a, (swapMove k m a b s).mem b) ∧
    (swapCopy a b s).mem = (swapMove k m a b s).mem := by
  have hmem : (swapCopy a b s).mem = (swapMove k m a b s).mem := by
    by_cases h : a = b
    · subst h; rw [swapCopy_mem_self, swapMove_mem_self]
    · rw [swapCopy_mem, swapMove_mem_of_ne k m a b s h]
  exact ⟨by rw [hmem], hmem⟩

/-- C13: for two distinct objects `a` and `b`, `swap(a, b)` and `swap(b, a)`
from one initial state return the same state, with `a` holding the old value
of `b` and `b` the old value of `a`, for the copy-based and for the
move-based swap. -/
theorem swap_args_symmetric {L T : Type} [DecidableEq L] (k : Members) (m : MoveSem T)
    (a b : L) (s : Machine L T) (h : a ≠ b) :
    (swapCopy a b s = swapCopy b a s ∧
      (swapCopy b a s).mem a = s.mem b ∧ (swapCopy b a s).mem b = s.mem a) ∧
    (swapMove k m a b s = swapMove k m b a s ∧
      (swapMove k m b a s).mem a = s.mem b ∧ (swapMove k m b a s).mem b = s.mem a) := by
  have key : write (write s.mem a (s.mem b)) b (s.mem a)
      = write (write s.mem b (s.mem a)) a (s.mem b) := by
    funext l
    by_cases hb : l = b
    · subst hb; simp [write, Ne.symm h]
    · by_cases ha : l = a
      · subst ha; simp [write, hb]
      · simp [write, hb, ha]
  have hba : write (write s.mem b (s.mem a)) a (s.mem b) a = s.mem b ∧
      write (write s.mem b (s.mem a)) a (s.mem b) b = s.mem a :=
    ⟨write_same _ _ _, by rw [write_other _ _ _ _ (Ne.symm h), write_same]⟩
  constructor
  · refine ⟨machine_eq _ _ ?_ rfl, ?_⟩
    · rw [swapCopy_mem, swapCopy_mem]; exact key
    · rw [swapCopy_mem]; exact hba
  · refine ⟨machine_eq _ _ ?_ ?_, ?_⟩
    · rw [swapMove_mem_of_ne k m a b s h, swapMove_mem_of_ne k m b a s (Ne.symm h)]; exact key
    · rw [swapMove_cnt, swapMove_cnt]
    · rw [swapMove_mem_of_ne k m b a s (Ne.symm h)]; exact hba

/-- Both argument orders on `[1,2,3]`, `[4,5]`, by copy and by a junk-leaving
move. -/
theorem swap_args_symmetric_witness :
    (0 : Nat) ≠ 1 ∧
    (swapCopy 0 1 (twoVars ([1, 2, 3] : List Int) [4, 5])
        = swapCopy 1 0 (twoVars [1, 2, 3] [4, 5]) ∧
      (swapCopy 1 0 (twoVars [1, 2, 3] [4, 5])).mem 0 = ([4, 5] : List Int) ∧
      (swapCopy 1 0 (twoVars [1, 2, 3] [4, 5])).mem 1 = ([1, 2, 3] : List Int)) ∧
    (swapMove movable junkMove 0 1 (twoVars [1, 2, 3] [4, 5])
        = swapMove movable junkMove 1 0 (twoVars [1, 2, 3] [4, 5]) ∧
      (swapMove movable junkMove 1 0 (twoVars [1, 2, 3] [4, 5])).mem 0 = ([4, 5] : List Int) ∧
      (swapMove movable junkMove 1 0 (twoVars [1, 2, 3] [4, 5])).mem 1 = ([1, 2, 3] : List Int)) :=
  ⟨by decide, swap_args_symmetric movable junkMove 0 1 (twoVars [1, 2, 3] [4, 5]) (by decide)⟩

/-- C14: at the call site, where `a` and `b` are two default-constructed, empty
vectors, `swap(a, b)` leaves `a` and `b` empty, under the copy-based template
and under the move-based template whatever the moves leave behind. -/
theorem callSite_both_empty :
    (callSiteCopy.mem 0 = [] ∧ callSiteCopy.mem 1 = []) ∧
    ∀ m : MoveSem (List Int), (callSiteMove m).mem 0 = [] ∧ (callSiteMove m).mem 1 = [] := by
  refine ⟨⟨rfl, rfl⟩, fun m => ?_⟩
  have h : (0 : Nat) ≠ 1 := by decide
  have hmem := swapMove_mem_of_ne movable m 0 1 callSiteInit h
  constructor
  · show (swapMove movable m 0 1 callSiteInit).mem 0 = []
    rw [hmem]; rfl
  · show (swapMove movable m 0 1 callSiteInit).mem 1 = []
    rw [hmem]; rfl

end Swap
